import Mathlib

/-!
Verification of the model/query subsystem of the `fire` ORM
(`lib/modules/models/model.js`), embedded shallowly: JavaScript values,
set/where maps, and the `Model.prototype` CRUD methods become Lean
definitions, promises become explicit sequencing, and thrown errors become
`Except`-style results.  `undefined` is modelled by absence of a binding
(`Option.none` on lookup), matching the `typeof x == 'undefined'` tests in
the source.
-/

namespace Fire

/-- JavaScript values as they occur in set/where maps.  `undefined` is not a
value here: it is modelled as absence of a binding. -/
inductive Val where
  | vnull
  | vbool (b : Bool)
  | vnum (n : Int)
  | vstr (s : String)
  deriving DecidableEq, Repr

/-- JavaScript truthiness of a defined value (`null`, `false`, `0` and the
empty string are falsy). -/
def Val.truthy : Val → Bool
  | .vnull => false
  | .vbool b => b
  | .vnum n => n != 0
  | .vstr s => s != ""

/-- A JavaScript object used as a set-map or where-map: an insertion-ordered
dictionary from key to value.  Keys are unique in a real JS object; lookup
returns the first binding. -/
abbrev JsMap := List (String × Val)

/-- Property lookup `m[k]`: `none` models `undefined`. -/
def JsMap.get (m : JsMap) (k : String) : Option Val :=
  (m.find? (fun kv => kv.1 = k)).map (fun kv => kv.2)

/-- Assignment `m[k] = v`: replaces the (first) existing binding in place or
appends a new one, mirroring JS object assignment. -/
def JsMap.set (m : JsMap) (k : String) (v : Val) : JsMap :=
  match m with
  | [] => [(k, v)]
  | kv :: rest => if kv.1 = k then (k, v) :: rest else kv :: JsMap.set rest k v

/-- Truthiness of `m[k]` as tested by guards such as `if(setMap[name])`:
an absent binding (`undefined`) is falsy. -/
def JsMap.truthyAt (m : JsMap) (k : String) : Bool :=
  match m.get k with
  | some v => v.truthy
  | none => false

/-- Definedness of `m[k]` as tested by `typeof m[k] != 'undefined'`. -/
def JsMap.definedAt (m : JsMap) (k : String) : Bool :=
  (m.get k).isSome

/-- Errors surfaced by the model layer.  `thrown` is an `Error` constructed by
the source itself, carrying the optional `error.status` HTTP-like code the
source sometimes attaches; `typeError` is a JavaScript runtime `TypeError`
(a property access on `undefined`), which the source never constructs
deliberately. -/
inductive JsError where
  | thrown (message : String) (status : Option Nat)
  | typeError (message : String)
  deriving DecidableEq, Repr

/-! ## Properties

`property.js` is not under `src/`; the option fields below follow the spec
(§3, §4.1): `transformMethod`, `hashMethod`, `selectMethod`, `defaultValue`
(a thunk, modelled by the value it resolves to), the default-change
companion field name, and association markers. -/

/-- Modelled from the spec: the options record of a `Property`
(`property.js` is not under `src/`).  §3 lists `defaultValue
(value|function)`, `transformMethod`, `hashMethod`, `selectMethod`,
association kind and `through`; the accessors `isTransformable`,
`isSelectable`, `isManyToMany` and `getAssociatedModel` (§4.1) are modelled
as presence tests on these fields. -/
structure PropOpts where
  transformMethod : Option (JsMap → Option Val)
  hashMethod : Option (JsMap → Val)
  defaultValue : Option Val
  defaultChangePropertyName : Option String
  selectMethod : Option (Val → JsMap)
  associatedModelName : Option String
  through : Option String

/-- A property of a model: its name plus its options record. -/
structure Property where
  name : String
  opts : PropOpts

def Property.isTransformable (p : Property) : Bool :=
  p.opts.transformMethod.isSome

def Property.isSelectable (p : Property) : Bool :=
  p.opts.selectMethod.isSome

def Property.isManyToMany (p : Property) : Bool :=
  p.opts.through.isSome

def Property.isAssociation (p : Property) : Bool :=
  p.opts.associatedModelName.isSome || p.opts.through.isSome

/-! ## The set-map transform pipeline (`Model.prototype._transformSetMap`)

The source builds one promise chain: for each property, in declaration
order, it appends (1) the property transform, (2) the hash-on-set step and
(3) the default-value fill.  The `forEach` loop runs synchronously, so every
guard — `setMap[property.name]` for the hash and the whole default-value
condition — is evaluated against the *incoming* set-map, while the chained
callbacks run afterwards, each one mutating the then-current map.  This is
embedded in two phases: `schedule` computes the list of actions from the
incoming map, `runAction` executes them in order. -/

/-- One queued callback of the `_transformSetMap` promise chain. -/
inductive SetAction where
  | transform (name : String) (f : JsMap → Option Val)
  | hash (name : String) (h : JsMap → Val)
  | fillDefault (name : String) (v : Val)

/-- The guard of the default-value fill, evaluated on the incoming set-map:
`!setMap[name] && isNew || !isNew && typeof setMap[name] != 'undefined' &&
!setMap[name] || defaultChangePropertyName && setMap[changeName]`. -/
def defaultGuard (p : Property) (isNew : Bool) (s0 : JsMap) : Bool :=
  (!(s0.truthyAt p.name) && isNew)
    || (!isNew && s0.definedAt p.name && !(s0.truthyAt p.name))
    || (match p.opts.defaultChangePropertyName with
        | some c => s0.truthyAt c
        | none => false)

/-- Actions queued for one property: transform if transformable, hash if a
hash method is set and the incoming map holds a truthy value, default fill
if a default value is set and `defaultGuard` holds. -/
def Property.schedule (p : Property) (isNew : Bool) (s0 : JsMap) : List SetAction :=
  (match p.opts.transformMethod with
   | some f => [SetAction.transform p.name f]
   | none => [])
  ++ (match p.opts.hashMethod with
      | some h => if s0.truthyAt p.name then [SetAction.hash p.name h] else []
      | none => [])
  ++ (match p.opts.defaultValue with
      | some v => if defaultGuard p isNew s0 then [SetAction.fillDefault p.name v] else []
      | none => [])

/-- Executes one queued callback on the current set-map.  A transform whose
result is `undefined` leaves the map unchanged; the hash method receives the
whole current set-map (`hashMethod.call(self, setMap)`). -/
def runAction (s : JsMap) : SetAction → JsMap
  | .transform n f =>
    match f s with
    | some v => s.set n v
    | none => s
  | .hash n h => s.set n (h s)
  | .fillDefault n v => s.set n v

/-- The full action list of `_transformSetMap`: per-property schedules
concatenated in property declaration order. -/
def scheduleAll (props : List Property) (isNew : Bool) (s0 : JsMap) : List SetAction :=
  props.flatMap (fun p => p.schedule isNew s0)

/-- `Model.prototype._transformSetMap`: schedule all actions against the
incoming map, then run them in order. -/
def transformSetMap (props : List Property) (isNew : Bool) (s0 : JsMap) : JsMap :=
  (scheduleAll props isNew s0).foldl runAction s0

/-- Pipeline stage of an action: transform 0, hash 1, default fill 2. -/
def SetAction.stage : SetAction → Nat
  | .transform _ _ => 0
  | .hash _ _ => 1
  | .fillDefault _ _ => 2

/-- Name targeted by an action. -/
def SetAction.target : SetAction → String
  | .transform n _ => n
  | .hash n _ => n
  | .fillDefault n _ => n

/-! ## Rows, model instances and row folding
(`Model.prototype._createModelInstances`) -/

/-- A datastore row: its id plus its remaining columns. -/
structure Row where
  id : Nat
  fields : JsMap
  deriving DecidableEq, Repr

/-- A materialized `ModelInstance` as far as row folding is concerned: the
parent id, the join rows consumed into it (the constructor row first), and
the constructor arguments `hookName`, `isPartial`, `isShallow`. -/
structure MInstance where
  id : Nat
  rows : List Row
  hookName : Option String
  isPartial : Bool
  isShallow : Bool
  deriving DecidableEq, Repr

/-- Modelled from the spec: `ModelInstance#consumeRow` (`model-instance.js`
is not under `src/`).  Per spec §3, consecutive join rows sharing the parent
id are consumed into the existing instance's association collection; a row
with a different id is rejected (the fold then starts a new instance). -/
def MInstance.consumeRow (inst : MInstance) (r : Row) : Option MInstance :=
  if r.id = inst.id then some { inst with rows := inst.rows ++ [r] } else none

/-- A fresh instance created from a row inside `_createModelInstances`
(`new ModelInstance(self, row, null, row.id, hookName, isPartial, isShallow,
privateMap)`). -/
def newInstance (r : Row) (hookName : Option String) (isPartial isShallow : Bool) : MInstance :=
  { id := r.id, rows := [r], hookName := hookName, isPartial := isPartial, isShallow := isShallow }

/-- The row-folding loop of `_createModelInstances`: keep the current
instance; a row the current instance rejects starts a new one.  The JS
pushes each instance on creation and mutates it in place on consume; emitting
an instance when its successor starts yields the same final list. -/
def foldRows (hookName : Option String) (isPartial isShallow : Bool) :
    Option MInstance → List Row → List MInstance
  | none, [] => []
  | some i, [] => [i]
  | none, r :: rest =>
    foldRows hookName isPartial isShallow (some (newInstance r hookName isPartial isShallow)) rest
  | some i, r :: rest =>
    match i.consumeRow r with
    | some i2 => foldRows hookName isPartial isShallow (some i2) rest
    | none => i :: foldRows hookName isPartial isShallow (some (newInstance r hookName isPartial isShallow)) rest

/-- `Model.prototype._createModelInstances`. -/
def createModelInstances (rows : List Row) (hookName : Option String)
    (isPartial isShallow : Bool) : List MInstance :=
  foldRows hookName isPartial isShallow none rows

/-! ## The model, its table, and method outcomes -/

/-- The `orderBy` option: property name and numeric/symbolic direction. -/
abbrev OrderBy := List (String × Int)

/-- The options map accepted by `find`/`update`/`remove` and friends. -/
structure FindOptions where
  limit : Option Nat
  skip : Option Nat
  orderBy : Option OrderBy
  groupBy : Option (List String)
  selectFields : Option (List String)
  associations : Option (List String)
  autoFetchDepth : Option Nat
  isShallow : Bool
  deriving DecidableEq, Repr

/-- The `optionsMap || \x7b\x7d` fallback: the fresh empty options object. -/
def emptyFindOptions : FindOptions :=
  { limit := none, skip := none, orderBy := none, groupBy := none,
    selectFields := none, associations := none, autoFetchDepth := none,
    isShallow := false }

/-- A parameterized statement issued to the table/datastore layer.  Methods
below record every such call, so "no datastore call" is the empty list. -/
inductive TableCall where
  | select (w : JsMap) (options : FindOptions)
  | update (w s : JsMap) (limit skip : Option Nat) (orderBy : Option OrderBy)
  | remove (w : JsMap) (limit skip : Option Nat) (orderBy : Option OrderBy)
  | insert (s : JsMap)
  | createTable
  | alterTable (added removed changed : Nat)
  | dropTable (force : Bool)
  | existsQuery
  | executeSql (sql : String) (values : List Val)
  deriving DecidableEq, Repr

/-- The datastore oracle backing a model's table: what rows each operation
would return.  Results are arbitrary; the embedding only tracks which calls
are made and how their results flow. -/
structure Table where
  selectRows : JsMap → FindOptions → List Row
  updateRows : JsMap → JsMap → Option Nat → Option Nat → Option OrderBy → List Row
  removeRows : JsMap → Option Nat → Option Nat → Option OrderBy → List Row
  insertRows : JsMap → List Row
  executeRows : String → List Val → List Row
  tableExists : Bool

/-- The task handle `\x7bmodel, operation, args\x7d` a method returns when an
active migration intercepts it (`activeMigration.addTask(this,
utils.getMethodName(...), args)`); the heterogeneous `args` array is left
opaque. -/
structure MigTask where
  modelName : String
  operation : String
  deriving DecidableEq, Repr

/-- Outcome of a model method: intercepted by the active migration and
queued, rejected with an error, or resolved with a value; the latter two carry
the list of datastore calls made along the way. -/
inductive Res (α : Type) where
  | queued (t : MigTask)
  | failed (e : JsError) (calls : List TableCall)
  | ok (calls : List TableCall) (value : α)
  deriving DecidableEq, Repr

/-- A `Model`: its name, the process-wide registry (`this.models`, here just
name to property-list), its own property dictionary in declaration order,
the names registered in `this._associations`, whether `this._activeMigration`
is set, and its table oracle. -/
structure Model where
  name : String
  models : List (String × List Property)
  props : List Property
  assocs : List String
  activeMigration : Bool
  table : Table

/-- Property-dictionary lookup (`this._properties[name]`). -/
def lookupProp (props : List Property) (n : String) : Option Property :=
  props.find? (fun p => p.name = n)

/-- Registry lookup of a model's properties by model name. -/
def lookupModelProps (reg : List (String × List Property)) (n : String) :
    Option (List Property) :=
  (reg.find? (fun kv => kv.1 = n)).map (fun kv => kv.2)

/-- Splits a character list at `'.'` separators, like JS
`String.prototype.split('.')` (so `"a..b"` gives `["a", "", "b"]` and `""`
gives `[""]`). -/
def splitDot : List Char → List Char → List (List Char)
  | [], acc => [acc.reverse]
  | c :: cs, acc =>
    if c = '.' then acc.reverse :: splitDot cs [] else splitDot cs (c :: acc)

/-- JavaScript `keyPath.split('.', 2)`: at most the first two dot-separated
segments. -/
def splitLimit2 (s : String) : List String :=
  match (splitDot s.data []).map String.mk with
  | [] => []
  | [a] => [a]
  | a :: b :: _ => [a, b]

/-- `Model.prototype.getProperty`: resolve a key path to a property.  A plain
name that does not resolve yields `undefined` (`Option.none`); a dot path
whose first segment is not a property crashes with a runtime `TypeError`
(`firstProperty.isManyToMany()` on `undefined`), as does a first segment
without a resolvable associated model (`associatedModel.getProperty` on
`undefined`, with `getAssociatedModel`/`options.through` per spec §4.1). -/
def Model.getProperty (m : Model) (keyPath : String) : Except JsError (Option Property) :=
  match lookupProp m.props keyPath with
  | some p => .ok (some p)
  | none =>
    match splitLimit2 keyPath with
    | [n1, n2] =>
      match lookupProp m.props n1 with
      | none => .error (.typeError "Cannot read property isManyToMany of undefined")
      | some p1 =>
        let assocName := if p1.isManyToMany then p1.opts.through else p1.opts.associatedModelName
        match assocName.bind (lookupModelProps m.models) with
        | none => .error (.typeError "Cannot read property getProperty of undefined")
        | some targetProps => .ok (lookupProp targetProps n2)
    | _ => .ok none

/-- The where-map error for an unresolvable property key. -/
def notFoundPropertyError (propertyName modelName : String) : JsError :=
  .thrown ("Cannot find property `" ++ propertyName ++ "` on `" ++ modelName ++ "`") none

/-- The where-map error for querying directly on a hashed property. -/
def hashQueryError (propertyName : String) : JsError :=
  .thrown ("Property `" ++ propertyName ++ "` contains a hash method. It is not possible to query on a hash method directly.") none

/-- The raw-operator test `propertyName.length > 1 && propertyName[0] == '$'`. -/
def isOperatorKey (k : String) : Bool :=
  k.length > 1 && k.data.head? = some '$'

/-- One iteration of the `_transformWhereMap` loop: operator keys are copied
verbatim; other keys resolve via `getProperty` (`undefined` rejects with the
not-found error), then selectable properties expand through their select
method, hashed properties reject, and plain properties copy key and value. -/
def Model.transformWhereEntry (m : Model) (acc : JsMap) (kv : String × Val) :
    Except JsError JsMap :=
  if isOperatorKey kv.1 then .ok (acc.set kv.1 kv.2)
  else
    match m.getProperty kv.1 with
    | .error e => .error e
    | .ok none => .error (notFoundPropertyError kv.1 m.name)
    | .ok (some p) =>
      match p.opts.selectMethod with
      | some sel => .ok ((sel kv.2).foldl (fun a e => a.set e.1 e.2) acc)
      | none =>
        match p.opts.hashMethod with
        | some _ => .error (hashQueryError kv.1)
        | none => .ok (acc.set kv.1 kv.2)

/-- The `Object.keys(whereMap).forEach` loop of `_transformWhereMap`,
threading the map being built; a thrown error aborts the whole loop. -/
def whereLoop (m : Model) : JsMap → JsMap → Except JsError JsMap
  | acc, [] => .ok acc
  | acc, kv :: rest =>
    match m.transformWhereEntry acc kv with
    | .error e => .error e
    | .ok acc2 => whereLoop m acc2 rest

/-- `Model.prototype._transformWhereMap`: fold the entries, building the
transformed map. -/
def Model.transformWhereMap (m : Model) (whereMap : JsMap) : Except JsError JsMap :=
  whereLoop m [] whereMap

/-! ## CRUD methods -/

/-- `Model.prototype.find` (lines 1279-1297): migration interception, then
where-map transformation (failures reject before any datastore call), then
`table.select`, then row folding with `hookName = null`, `isPartial = false`
and the caller's `isShallow`. -/
def Model.find (m : Model) (whereMap : Option JsMap) (optionsMap : Option FindOptions) :
    Res (List MInstance) :=
  if m.activeMigration then .queued ⟨m.name, "find"⟩
  else
    let options := optionsMap.getD emptyFindOptions
    match m.transformWhereMap (whereMap.getD []) with
    | .error e => .failed e []
    | .ok w =>
      let rows := m.table.selectRows w options
      .ok [TableCall.select w options] (createModelInstances rows none false options.isShallow)

/-- The `var options = optionsMap || \x7b\x7d; options.limit = 1;` prologue shared
by `findOne`, `updateOne` and `removeOne`.  The source mutates the caller's
object in place; in this state-passing embedding the returned record is both
the options the delegated call receives and the state of the caller's
options object after the call. -/
def forceLimitOne (optionsMap : Option FindOptions) : FindOptions :=
  let options := optionsMap.getD emptyFindOptions
  { options with limit := some 1 }

/-- `Model.prototype.findOne` (lines 1333-1354): own migration check, then
`find` with the limit forced to 1, then first instance or null. -/
def Model.findOne (m : Model) (whereMap : Option JsMap) (optionsMap : Option FindOptions) :
    Res (Option MInstance) :=
  if m.activeMigration then .queued ⟨m.name, "findOne"⟩
  else
    match m.find whereMap (some (forceLimitOne optionsMap)) with
    | .queued t => .queued t
    | .failed e cs => .failed e cs
    | .ok cs instances => .ok cs instances.head?

/-- `Model.prototype.getOne` (lines 953-968): `findOne`, then a 404 `Not
Found` rejection when the result is null (the trailing `.catch` rethrows
unchanged). -/
def Model.getOne (m : Model) (whereMap : Option JsMap) (optionsMap : Option FindOptions) :
    Res MInstance :=
  match m.findOne whereMap optionsMap with
  | .queued t => .queued t
  | .failed e cs => .failed e cs
  | .ok cs (some inst) => .ok cs inst
  | .ok cs none => .failed (.thrown "Not Found" (some 404)) cs

/-- The first argument of `update`: a where map (anything of JS type
`object`, including `null`) or a bare id value. -/
inductive WhereArg where
  | map (wm : Option JsMap)
  | idVal (v : Val)

/-- `Model.prototype.update` (lines 875-902): migration interception; a bare
id becomes `\x7bid: whereMap\x7d`, an object runs the where transform; the set map
runs `_transformSetMap` with `isNew = false`; then `table.update` and row
folding with hook `afterUpdate`, `isPartial = true`. -/
def Model.update (m : Model) (whereMap : WhereArg) (setMap : Option JsMap)
    (optionsMap : Option FindOptions) : Res (List MInstance) :=
  if m.activeMigration then .queued ⟨m.name, "update"⟩
  else
    let whereRes :=
      match whereMap with
      | .map wm => m.transformWhereMap (wm.getD [])
      | .idVal v => .ok [("id", v)]
    match whereRes with
    | .error e => .failed e []
    | .ok w =>
      let options := optionsMap.getD emptyFindOptions
      let s := transformSetMap m.props false (setMap.getD [])
      let rows := m.table.updateRows w s options.limit options.skip options.orderBy
      .ok [TableCall.update w s options.limit options.skip options.orderBy]
        (createModelInstances rows (some "afterUpdate") true false)

/-- `Model.prototype.updateOne` (lines 911-924): force `limit = 1` on the
caller's options, delegate to `update`, return the first instance or null. -/
def Model.updateOne (m : Model) (whereMap : WhereArg) (setMap : Option JsMap)
    (optionsMap : Option FindOptions) : Res (Option MInstance) :=
  match m.update whereMap setMap (some (forceLimitOne optionsMap)) with
  | .queued t => .queued t
  | .failed e cs => .failed e cs
  | .ok cs instances => .ok cs instances.head?

/-- The error thrown by `Model#remove` on an empty transformed where map; no
`error.status` is attached. -/
def removeWithoutWhereError : JsError :=
  .thrown "You are calling Model#remove without a `where` clause. This will result in removing all instances. This is disabled in Model#remove. Please invoke Model#removeAll instead." none

/-- `Model.prototype.remove` (lines 1037-1060): migration interception, where
transformation, rejection when the transformed map has no keys (before any
datastore call), otherwise `table.remove` and row folding with
`isPartial = true`. -/
def Model.remove (m : Model) (whereMap : Option JsMap) (optionsMap : Option FindOptions) :
    Res (List MInstance) :=
  if m.activeMigration then .queued ⟨m.name, "remove"⟩
  else
    match m.transformWhereMap (whereMap.getD []) with
    | .error e => .failed e []
    | .ok w =>
      if w.isEmpty then .failed removeWithoutWhereError []
      else
        let options := optionsMap.getD emptyFindOptions
        let rows := m.table.removeRows w options.limit options.skip options.orderBy
        .ok [TableCall.remove w options.limit options.skip options.orderBy]
          (createModelInstances rows none true false)

/-- `Model.prototype.removeOne` (lines 1062-1075): force `limit = 1` on the
caller's options, delegate to `remove`, return the first instance or null. -/
def Model.removeOne (m : Model) (whereMap : Option JsMap) (optionsMap : Option FindOptions) :
    Res (Option MInstance) :=
  match m.remove whereMap (some (forceLimitOne optionsMap)) with
  | .queued t => .queued t
  | .failed e cs => .failed e cs
  | .ok cs instances => .ok cs instances.head?

/-- `Model.prototype.removeAll` (lines 1019-1029): migration interception or
an unconditional `table.remove(\x7b\x7d)`. -/
def Model.removeAll (m : Model) : Res (List Row) :=
  if m.activeMigration then .queued ⟨m.name, "removeAll"⟩
  else .ok [TableCall.remove [] none none none] (m.table.removeRows [] none none none)

/-- `Model.prototype.setup` (lines 776-786): migration interception or
`table.create()`. -/
def Model.setup (m : Model) : Res Unit :=
  if m.activeMigration then .queued ⟨m.name, "setup"⟩
  else .ok [TableCall.createTable] ()

/-- `Model.prototype.edit` (lines 736-747): migration interception or
`table.alter(added, removed, changed)`. -/
def Model.edit (m : Model) (added removed changed : List Property) : Res Unit :=
  if m.activeMigration then .queued ⟨m.name, "edit"⟩
  else .ok [TableCall.alterTable added.length removed.length changed.length] ()

/-- `Model.prototype.execute` (lines 1521-1535): migration interception or
`table.execute(sql, values)` followed by row folding with
`isPartial = true`. -/
def Model.execute (m : Model) (sql : String) (values : List Val) : Res (List MInstance) :=
  if m.activeMigration then .queued ⟨m.name, "execute"⟩
  else
    let rows := m.table.executeRows sql values
    .ok [TableCall.executeSql sql values] (createModelInstances rows none true false)

/-- `Model.prototype.exists` (lines 979-989; the name `exists` is a reserved
token in Lean): migration interception or `table.exists()`. -/
def Model.existsCheck (m : Model) : Res Bool :=
  if m.activeMigration then .queued ⟨m.name, "exists"⟩
  else .ok [TableCall.existsQuery] m.table.tableExists

/-- `Model.prototype.forceDestroy` (lines 1440-1450): migration interception
or `table.drop(true)`. -/
def Model.forceDestroy (m : Model) : Res Unit :=
  if m.activeMigration then .queued ⟨m.name, "forceDestroy"⟩
  else .ok [TableCall.dropTable true] ()

/-- `Model.prototype.destroy` (lines 1461-1471): migration interception or
`table.drop(false)`. -/
def Model.destroy (m : Model) : Res Unit :=
  if m.activeMigration then .queued ⟨m.name, "destroy"⟩
  else .ok [TableCall.dropTable false] ()

/-- `Model.prototype._create` (lines 796-809): migration interception or
`table.insert(setMap)` resolving with the first returned row. -/
def Model._create (m : Model) (setMap : JsMap) : Res (Option Row) :=
  if m.activeMigration then .queued ⟨m.name, "_create"⟩
  else .ok [TableCall.insert setMap] (m.table.insertRows setMap).head?

/-- The error `Model#addProperty` throws for a reserved property name. -/
def invalidPropertyNameError (n : String) : JsError :=
  .thrown ("Invalid property name `" ++ n ++ "`. Property names may not start with _ or $ as they are reserved.") none

/-- Replacement-or-append write into the property dictionary
(`this._properties[property.name] = property`). -/
def upsertProp (props : List Property) (p : Property) : List Property :=
  if (props.find? (fun q => q.name = p.name)).isSome then
    props.map (fun q => if q.name = p.name then p else q)
  else props ++ [p]

/-- `Model.prototype.addProperty` (lines 461-477).  Unlike the task-queueing
methods, an active migration is only notified
(`activeMigration.addProperty(property, old)`, recorded here as the Bool in
the result); the in-memory property (and association) registration still
happens and the property itself is returned. -/
def Model.addProperty (m : Model) (p : Property) (isNew : Bool) :
    Except JsError (Model × Property × Bool) :=
  if p.name = "" || p.name.data.head? = some '_' || p.name.data.head? = some '$' then
    .error (invalidPropertyNameError p.name)
  else
    let notified := !isNew && m.activeMigration
    let m2 := { m with
      props := upsertProp m.props p,
      assocs := if p.isAssociation then m.assocs ++ [p.name] else m.assocs }
    .ok (m2, p, notified)

/-! ## Property enumeration (`Model.prototype.getAllProperties`)

A model definition is the set of own enumerable fields the user's definition
function assigned (`this.name = [this.String]`, methods, or other values).
`getAllProperties` lazily initialises `this._properties`: it creates the
implicit `id` property only when `this.id` is falsy, then walks the fields,
skipping names present on `Model.prototype`, adding array-valued fields as
properties (via `_addProperty`, which ignores empty arrays) and
function-valued fields as methods. -/

/-- A property-type tag as found in a definition's modifier array.  The
`Property` constructor itself lives in `property.js` (not under `src/`);
for this claim only the name-keyed dictionary matters, so entries keep their
tag list. -/
inductive PropSpec where
  | UUID
  | CanUpdateFalse
  | other (tag : String)
  deriving DecidableEq, Repr

/-- The value of one own enumerable field of a model definition. -/
inductive DefVal where
  | arr (specs : List PropSpec)
  | func
  | other (truthy : Bool)
  deriving DecidableEq, Repr

/-- JavaScript truthiness of a definition field value: arrays and functions
are always truthy. -/
def DefVal.jsTruthy : DefVal → Bool
  | .arr _ => true
  | .func => true
  | .other t => t

/-- A declarative model definition: its own enumerable fields in insertion
order. -/
structure ModelDefn where
  defs : List (String × DefVal)
  deriving DecidableEq, Repr

/-- The modifier list of the implicitly created id property
(`[this.UUID, this.CanUpdate(false)]`). -/
def implicitIdSpecs : List PropSpec := [.UUID, .CanUpdateFalse]

/-- Members of `Model.prototype` in `model.js`; the enumeration loop skips a
field whose name is one of these (`typeof Model.prototype[propertyName] !=
'undefined'`). -/
def modelPrototypeNames : List String :=
  ["isShared", "authorize", "new", "signOut", "findMe", "getMe",
   "resetPassword", "forgotPassword", "getFileName", "isAuthenticator",
   "isPasswordBasedAuthenticator", "setActiveMigration",
   "getAllAssociations", "getAssociations", "getAssociation",
   "removeAllAssociations", "findAssociationsTo", "setTable", "getTable",
   "getName", "addProperty", "_addProperty", "_addMethod",
   "_removeManyAssociationTo", "_removeOneAssociationTo", "removeProperty",
   "getProperty", "getMethods", "getAllProperties", "changeProperties",
   "addProperties", "edit", "removeProperties", "setup", "_create",
   "updateFunction", "update", "updateOne", "_updateOne", "getOne",
   "exists", "count", "removeAll", "remove", "removeOne", "findOrCreate",
   "updateOrCreate", "_transformSetMap", "_transformWhereMap", "find",
   "_createModelInstances", "findOne", "_findAuthenticator", "canCreate",
   "create", "forceDestroy", "destroy", "setAccessControl",
   "getAccessControl", "execute", "accessControl", "beforeCreate",
   "afterCreate", "afterSave", "beforeSave", "afterUpdate", "beforeUpdate",
   "afterLoad", "beforeLoad", "onForgotPassword", "onResetPassword",
   "onChangePassword"]

/-- The name-keyed property dictionary built by the enumeration; values are
tag lists. -/
abbrev PropDict := List (String × List PropSpec)

/-- Replacement-or-append write into the name-keyed dictionary. -/
def upsertDict (d : PropDict) (k : String) (v : List PropSpec) : PropDict :=
  if (d.find? (fun kv => kv.1 = k)).isSome then
    d.map (fun kv => if kv.1 = k then (k, v) else kv)
  else d ++ [(k, v)]

/-- One step of the enumeration loop of `getAllProperties`: skip prototype
members; a non-empty array adds a property (after `addProperty`'s reserved
name check), an empty array is ignored (`_addProperty` returns null), a
function becomes a method, other values are ignored. -/
def enumStep (acc : PropDict) (kv : String × DefVal) : Except JsError PropDict :=
  if modelPrototypeNames.contains kv.1 then .ok acc
  else
    match kv.2 with
    | .arr [] => .ok acc
    | .arr specs =>
      if kv.1 = "" || kv.1.data.head? = some '_' || kv.1.data.head? = some '$' then
        .error (invalidPropertyNameError kv.1)
      else .ok (upsertDict acc kv.1 specs)
    | .func => .ok acc
    | .other _ => .ok acc

/-- The `for(propertyName in this)` enumeration loop, applying `enumStep` to
each definition field in insertion order. -/
def enumLoop : PropDict → List (String × DefVal) → Except JsError PropDict
  | acc, [] => .ok acc
  | acc, kv :: rest =>
    match enumStep acc kv with
    | .error e => .error e
    | .ok acc2 => enumLoop acc2 rest

/-- The body of `getAllProperties` that populates `this._properties` for the
first time: the implicit id is created only when `this.id` is falsy — a
declaration `this.id = []` is truthy, so it suppresses the implicit id while
`_addProperty` then ignores the empty array. -/
def buildProperties (d : ModelDefn) : Except JsError PropDict :=
  let declaredIdTruthy :=
    (d.defs.find? (fun kv => kv.1 = "id" && kv.2.jsTruthy)).isSome
  let init : PropDict := if declaredIdTruthy then [] else [("id", implicitIdSpecs)]
  enumLoop init d.defs

/-- `Model.prototype.getAllProperties` (lines 655-682) including the lazy
initialisation: when `this._properties` is already set it is returned as is;
otherwise it is built from the definition and cached.  The returned pair is
(result, new cache state). -/
def getAllProperties (cache : Option PropDict) (d : ModelDefn) :
    Except JsError (PropDict × Option PropDict) :=
  match cache with
  | some ps => .ok (ps, some ps)
  | none =>
    match buildProperties d with
    | .error e => .error e
    | .ok ps => .ok (ps, some ps)

/-! ## `Model.prototype.create` on array input

`create` maps over the array, synchronously constructing a `ModelInstance`
and calling `save()` on each element, and wraps the promises in `Q.all`.
The `map` callback runs to completion for every element before any insert
resolves, so in the event trace every save begins before any save ends;
`Q.all` then resolves with the results in input order.  `ModelInstance#save`
(`model-instance.js`, not under `src/`) is per spec §4.3 the per-instance
pipeline-and-insert, kept abstract here. -/

/-- Begin/end events of the per-element saves of `Model.create` on an array
of length `n`. -/
inductive CreateEvent where
  | beginSave (i : Nat)
  | endSave (i : Nat)
  deriving DecidableEq, Repr

/-- Whether an event is the beginning of a save (one per inserted element). -/
def CreateEvent.isBegin : CreateEvent → Bool
  | .beginSave _ => true
  | .endSave _ => false

/-- The event trace of `Model.prototype.create` (lines 1424-1433) on array
input of length `n`: `fields.map(function(createMap) { return new
ModelInstance(...).save(); })` starts every save synchronously, then the
inserts complete. -/
def createArrayTrace (n : Nat) : List CreateEvent :=
  ((List.range n).map CreateEvent.beginSave) ++ ((List.range n).map CreateEvent.endSave)

/-- The values `Q.all` resolves with: the saved instances in input order.
`save` abstracts `ModelInstance#save`. -/
def createArrayResults (save : JsMap → MInstance) (fields : List JsMap) : List MInstance :=
  fields.map save

/-- The claimed sequencing: each element's insert begins only after the
previous element's insert has completed. -/
def insertsSequential (tr : List CreateEvent) (n : Nat) : Prop :=
  ∀ i, i + 1 < n →
    tr.indexOf (CreateEvent.endSave i) < tr.indexOf (CreateEvent.beginSave (i + 1))

/-! ## Access-control denial errors -/

/-- `unauthenticatedError(authenticator)` (`model.js` lines 10-23, with the
same shape in `src/test/fixtures/api/tester.js` lines 17-29 via
`http.STATUS_CODES`): 403 Forbidden when an authenticator (actor) was
resolved, 401 Unauthorized when none was. -/
def unauthenticatedError (authenticator : Option MInstance) : JsError :=
  match authenticator with
  | some _ => .thrown "Forbidden" (some 403)
  | none => .thrown "Unauthorized" (some 401)

/-- The denial step every route of `tester.js` applies after evaluating its
access-control verdict: a falsy verdict rejects with
`unauthenticatedError(authenticator)`, a truthy one proceeds (`none`). -/
def accessControlDenial (verdict : Bool) (authenticator : Option MInstance) :
    Option JsError :=
  if verdict then none else some (unauthenticatedError authenticator)

/-- The status code carried by an error (`error.status`), if any. -/
def JsError.statusOf : JsError → Option Nat
  | .thrown _ st => st
  | .typeError _ => none

/-- Datastore calls a method outcome performed (none for a queued task). -/
def Res.calls {α : Type} : Res α → List TableCall
  | .queued _ => []
  | .failed _ cs => cs
  | .ok cs _ => cs

/-- Whether a datastore call is an unconditional (empty-where) delete. -/
def TableCall.isUnconditionalRemove : TableCall → Bool
  | .remove [] _ _ _ => true
  | _ => false

/-! ## Concrete fixtures used by witnesses and counterexamples -/

/-- A table oracle returning no rows anywhere. -/
def emptyTable : Table :=
  { selectRows := fun _ _ => [], updateRows := fun _ _ _ _ _ => [],
    removeRows := fun _ _ _ _ => [], insertRows := fun _ => [],
    executeRows := fun _ _ => [], tableExists := false }

/-- An options record with nothing set. -/
def noOpts : PropOpts :=
  { transformMethod := none, hashMethod := none, defaultValue := none,
    defaultChangePropertyName := none, selectMethod := none,
    associatedModelName := none, through := none }

/-- A model over `emptyTable` with an empty registry. -/
def mkModel (name : String) (props : List Property) (mig : Bool) : Model :=
  { name := name, models := [], props := props, assocs := [],
    activeMigration := mig, table := emptyTable }

/-- A property with a default value `"D"` and default-change companion field
`"c"`. -/
def pDefault : Property :=
  { name := "a",
    opts := { noOpts with defaultValue := some (.vstr "D"),
                          defaultChangePropertyName := some "c" } }

/-- An incoming set-map with the target field `"a"` set (truthy) and the
companion field `"c"` set (truthy). -/
def setMapAC : JsMap := [("a", .vstr "x"), ("c", .vstr "y")]

/-- A plain property named `"x"`. -/
def pX : Property := { name := "x", opts := noOpts }

/-- A model with an active migration and no properties. -/
def mMig : Model := mkModel "Tester" [] true

/-- The model `mMig` after `addProperty` registers `pX`. -/
def mMigAfterAdd : Model := { mMig with props := [pX] }

/-- A migration-free model with a single plain property `"name"`. -/
def mName : Model := mkModel "Tester" [{ name := "name", opts := noOpts }] false

/-- A migration-free model with no properties. -/
def mEmpty : Model := mkModel "Tester" [] false

/-- Join rows with interleaved parent ids 1, 2, 1. -/
def rowsUnordered : List Row := [⟨1, []⟩, ⟨2, []⟩, ⟨1, []⟩]

/-- A model definition declaring `id` as an empty modifier array. -/
def defnEmptyId : ModelDefn := ⟨[("id", .arr [])]⟩

/-- A model definition declaring one ordinary property. -/
def defnName : ModelDefn := ⟨[("name", .arr [.other "String"])]⟩

/-!
# Claims

Each claim of the specification is settled by one theorem below (with a
witness when the theorem has hypotheses, and a counterexample theorem when
the claim as stated fails on the code).
-/

/-! ## C9: access-control denial errors distinguish 401 and 403 -/

/-- C9: for every access-control denial, the rejected error distinguishes the
two cases: with no resolved actor it carries status 401 (Unauthorized), and
with a resolved actor lacking permission it carries status 403 (Forbidden). -/
theorem unauthenticatedError_distinguishes_actor :
    unauthenticatedError none = JsError.thrown "Unauthorized" (some 401)
    ∧ (∀ a : MInstance,
        unauthenticatedError (some a) = JsError.thrown "Forbidden" (some 403))
    ∧ (∀ auth : Option MInstance,
        accessControlDenial false auth = some (unauthenticatedError auth))
    ∧ (unauthenticatedError none).statusOf = some 401
    ∧ (∀ a : MInstance, (unauthenticatedError (some a)).statusOf = some 403) :=
  ⟨rfl, fun _ => rfl, fun _ => rfl, rfl, fun _ => rfl⟩

/-! ## C10: findOne/updateOne/removeOne mutate the caller's options map -/

/-- C10: `findOne`, `updateOne` and `removeOne` run the shared prologue that
sets `limit = 1` on the caller-supplied options object before delegating.
In this state-passing embedding of the in-place mutation, `forceLimitOne
(some o)` is both the options record the delegated `find`/`update`/`remove`
receives and the state of the caller's object after the call: it is the
caller's record with `limit` overwritten to 1 and every other field kept, so
any later reuse of the object sees `limit == 1`. -/
theorem oneMethods_force_limit_on_callers_options (o : FindOptions) (m : Model)
    (w : Option JsMap) (wa : WhereArg) (s : Option JsMap) :
    forceLimitOne (some o) = { o with limit := some 1 }
    ∧ (forceLimitOne (some o)).limit = some 1
    ∧ (forceLimitOne (some o)).skip = o.skip
    ∧ (forceLimitOne (some o)).orderBy = o.orderBy
    ∧ m.findOne w (some o) =
        (if m.activeMigration then Res.queued ⟨m.name, "findOne"⟩
         else
           match m.find w (some (forceLimitOne (some o))) with
           | .queued t => .queued t
           | .failed e cs => .failed e cs
           | .ok cs instances => .ok cs instances.head?)
    ∧ m.updateOne wa s (some o) =
        (match m.update wa s (some (forceLimitOne (some o))) with
         | .queued t => .queued t
         | .failed e cs => .failed e cs
         | .ok cs instances => .ok cs instances.head?)
    ∧ m.removeOne w (some o) =
        (match m.remove w (some (forceLimitOne (some o))) with
         | .queued t => .queued t
         | .failed e cs => .failed e cs
         | .ok cs instances => .ok cs instances.head?) :=
  ⟨rfl, rfl, rfl, rfl, rfl, rfl, rfl⟩

/-! ## C7: findOne is find with limit 1; getOne turns null into 404 -/

/-- C7: outside a migration, `findOne` behaves as `find` with the limit
forced to 1, resolving with the first instance when the result list is
non-empty and with null (`none`) otherwise; `getOne` resolves with the same
instance when `findOne` is non-null and otherwise rejects with a 404
`Not Found` error. -/
theorem findOne_getOne_contract (m : Model) (w : Option JsMap) (o : Option FindOptions)
    (h : m.activeMigration = false) :
    m.findOne w o =
      (match m.find w (some (forceLimitOne o)) with
       | .queued t => .queued t
       | .failed e cs => .failed e cs
       | .ok cs instances => .ok cs instances.head?)
    ∧ (∀ (cs : List TableCall) (instances : List MInstance),
        m.find w (some (forceLimitOne o)) = .ok cs instances →
        m.findOne w o = .ok cs instances.head?)
    ∧ (∀ (cs : List TableCall) (inst : MInstance),
        m.findOne w o = .ok cs (some inst) → m.getOne w o = .ok cs inst)
    ∧ (∀ cs : List TableCall,
        m.findOne w o = .ok cs none →
        m.getOne w o = .failed (.thrown "Not Found" (some 404)) cs) := by
  refine ⟨?_, ?_, ?_, ?_⟩
  · simp [Model.findOne, h]
  · intro cs instances hfind
    simp [Model.findOne, h, hfind]
  · intro cs inst hfo
    simp [Model.getOne, hfo]
  · intro cs hfo
    simp [Model.getOne, hfo]

/-- Witness for C7 at the concrete migration-free model `mEmpty`. -/
theorem findOne_getOne_contract_witness :
    mEmpty.findOne none none =
      (match mEmpty.find none (some (forceLimitOne none)) with
       | .queued t => .queued t
       | .failed e cs => .failed e cs
       | .ok cs instances => .ok cs instances.head?) :=
  (findOne_getOne_contract mEmpty none none rfl).1

/-! ## C2: migration interception of mutating methods -/

/-- C2 (amended): with an active migration set, the mutating methods that
follow the `addTask` pattern — `setup`, `edit`, `update`, `remove`,
`execute`, `exists`, `removeAll`, `forceDestroy` — do not touch the table
and return the queued-task handle; `addProperty`, by contrast, only notifies
the migration (the Bool in its result) while still performing the in-memory
property registration and returning the property itself, and
`Model.create` has no migration check of its own (interception happens at
the lower `_create` level). -/
theorem migration_queues_mutating_methods (m : Model)
    (added removed changed : List Property) (wa : WhereArg)
    (w s : Option JsMap) (o : Option FindOptions) (sql : String)
    (vals : List Val) (p : Property)
    (h : m.activeMigration = true) :
    Model.setup m = .queued ⟨m.name, "setup"⟩
    ∧ Model.edit m added removed changed = .queued ⟨m.name, "edit"⟩
    ∧ Model.update m wa s o = .queued ⟨m.name, "update"⟩
    ∧ Model.remove m w o = .queued ⟨m.name, "remove"⟩
    ∧ Model.execute m sql vals = .queued ⟨m.name, "execute"⟩
    ∧ Model.existsCheck m = .queued ⟨m.name, "exists"⟩
    ∧ Model.removeAll m = .queued ⟨m.name, "removeAll"⟩
    ∧ Model.forceDestroy m = .queued ⟨m.name, "forceDestroy"⟩
    ∧ (¬(p.name = "") → p.name.data.head? ≠ some '_' → p.name.data.head? ≠ some '$' →
        Model.addProperty m p false =
          .ok ({ m with props := upsertProp m.props p,
                        assocs := if p.isAssociation then m.assocs ++ [p.name]
                                  else m.assocs },
               p, true)) := by
  refine ⟨?_, ?_, ?_, ?_, ?_, ?_, ?_, ?_, ?_⟩
  · simp [Model.setup, h]
  · simp [Model.edit, h]
  · simp [Model.update, h]
  · simp [Model.remove, h]
  · simp [Model.execute, h]
  · simp [Model.existsCheck, h]
  · simp [Model.removeAll, h]
  · simp [Model.forceDestroy, h]
  · intro h1 h2 h3
    simp [Model.addProperty, h1, h2, h3, h]

/-- Witness for C2 at the concrete model `mMig` with its migration set. -/
theorem migration_queues_mutating_methods_witness :
    Model.setup mMig = .queued ⟨mMig.name, "setup"⟩
    ∧ Model.update mMig (.map none) none none = .queued ⟨mMig.name, "update"⟩ :=
  ⟨(migration_queues_mutating_methods mMig [] [] [] (.map none) none none none
      "" [] pX rfl).1,
   (migration_queues_mutating_methods mMig [] [] [] (.map none) none none none
      "" [] pX rfl).2.2.1⟩

/-- Counterexample for C2: `addProperty` is in the claim's method list, yet
with the migration active it still performs its in-memory mutation (the
property dictionary gains `"x"`) and returns the property — not a
queued-task handle (the `true` records that the migration was merely
notified via `activeMigration.addProperty`). -/
theorem addProperty_executes_despite_migration :
    mMig.activeMigration = true
    ∧ Model.addProperty mMig pX false = .ok (mMigAfterAdd, pX, true)
    ∧ lookupProp mMig.props "x" = none
    ∧ lookupProp mMigAfterAdd.props "x" = some pX :=
  ⟨rfl, rfl, rfl, rfl⟩

/-! ## C3: remove with an empty where map fails before any datastore call -/

/-- C3 (amended): outside a migration, `remove` whose transformed where map
has no keys always rejects with the `Model#remove without a where clause`
error before any datastore call — but that error carries no status code
(nothing 400-like is attached); moreover no `remove` invocation ever issues
an unconditional (empty-where) table delete, while `removeAll` always
does. -/
theorem remove_empty_where_rejects (m : Model) (w : Option JsMap)
    (o : Option FindOptions) (h : m.activeMigration = false)
    (hw : m.transformWhereMap (w.getD []) = .ok []) :
    Model.remove m w o = .failed removeWithoutWhereError []
    ∧ removeWithoutWhereError.statusOf = none
    ∧ (∀ (m' : Model) (w' : Option JsMap) (o' : Option FindOptions) (c : TableCall),
        c ∈ (Model.remove m' w' o').calls → c.isUnconditionalRemove = false)
    ∧ (∀ m' : Model, m'.activeMigration = false →
        (Model.removeAll m').calls = [TableCall.remove [] none none none]) := by
  refine ⟨?_, rfl, ?_, ?_⟩
  · simp [Model.remove, h, hw]
  · intro m' w' o' c hc
    unfold Model.remove at hc
    by_cases hm : m'.activeMigration = true
    · simp [hm, Res.calls] at hc
    · simp only [hm, if_false, Bool.false_eq_true] at hc
      cases htw : m'.transformWhereMap (w'.getD []) with
      | error e =>
        rw [htw] at hc
        simp [Res.calls] at hc
      | ok ww =>
        rw [htw] at hc
        cases ww with
        | nil => simp [Res.calls] at hc
        | cons a l =>
          simp [Res.calls] at hc
          subst hc
          simp [TableCall.isUnconditionalRemove]
  · intro m' hm
    simp [Model.removeAll, hm, Res.calls]

/-- Witness for C3 at the concrete model `mEmpty` with an absent where
map. -/
theorem remove_empty_where_rejects_witness :
    Model.remove mEmpty none none = .failed removeWithoutWhereError [] :=
  (remove_empty_where_rejects mEmpty none none rfl rfl).1

/-- Counterexample for C3: the rejection is real and happens with zero
datastore calls, but the error is a plain `Error` whose status is `none` —
not a BadRequest-class (400) error as claimed. -/
theorem remove_empty_where_error_not_400 :
    Model.remove mEmpty none none = .failed removeWithoutWhereError []
    ∧ removeWithoutWhereError.statusOf ≠ some 400 :=
  ⟨rfl, by decide⟩

/-! ## C5: row folding groups consecutive rows sharing the parent id -/

/-- Folding from a current instance consumes every subsequent row that
shares its id. -/
theorem foldRows_all_same (hook : Option String) (ip ish : Bool)
    (rows : List Row) (i : MInstance) (hall : ∀ r ∈ rows, r.id = i.id) :
    foldRows hook ip ish (some i) rows = [{ i with rows := i.rows ++ rows }] := by
  induction rows generalizing i with
  | nil => simp [foldRows]
  | cons r rest ih =>
    have hr : r.id = i.id := hall r (List.mem_cons_self r rest)
    simp only [foldRows, MInstance.consumeRow, hr, if_pos]
    rw [ih]
    · simp
    · intro r2 h2
      have h3 := hall r2 (List.mem_cons_of_mem r h2)
      simpa using h3

/-- C5: for every non-empty list of join rows all sharing the same parent
id, the row-folding step yields exactly one instance containing all the
rows (such rows are necessarily consecutive, as when the join result is
ordered by parent id); and for the unordered input `rowsUnordered` (ids
1, 2, 1) the fold produces two instances for parent id 1. -/
theorem fold_groups_consecutive_rows (rows : List Row) (pid : Nat)
    (hook : Option String) (ip ish : Bool)
    (hne : rows ≠ []) (hall : ∀ r ∈ rows, r.id = pid) :
    createModelInstances rows hook ip ish =
      [{ id := pid, rows := rows, hookName := hook, isPartial := ip, isShallow := ish }]
    ∧ ((createModelInstances rowsUnordered none false false).filter
        (fun i => i.id = 1)).length = 2 := by
  constructor
  · match rows, hne, hall with
    | r :: rest, _, hall =>
      have hr : r.id = pid := hall r (List.mem_cons_self r rest)
      simp only [createModelInstances, foldRows]
      rw [foldRows_all_same]
      · simp [newInstance, hr]
      · intro r2 h2
        have h3 := hall r2 (List.mem_cons_of_mem r h2)
        simp [newInstance, hr, h3]
  · decide

/-- Witness for C5 at three concrete rows sharing id 5. -/
theorem fold_groups_consecutive_rows_witness :
    createModelInstances [⟨5, []⟩, ⟨5, []⟩, ⟨5, []⟩] (some "afterUpdate") true false =
      [{ id := 5, rows := [⟨5, []⟩, ⟨5, []⟩, ⟨5, []⟩],
         hookName := some "afterUpdate", isPartial := true, isShallow := false }] :=
  (fold_groups_consecutive_rows [⟨5, []⟩, ⟨5, []⟩, ⟨5, []⟩] 5 (some "afterUpdate")
    true false (by decide) (by decide)).1

/-! ## C8: array create starts all inserts before any completes -/

/-- C8 (amended): on array input, `create` maps `save()` over the elements
synchronously and wraps them in `Q.all`, so in the event trace every save
begins (positions `j < n`) before any save ends (positions `n + i`) — the
inserts run concurrently, one insert per element (no bulk insert) — and the
promise resolves with the created instances in input order. -/
theorem create_array_concurrent_inserts (n i j idx : Nat)
    (save : JsMap → MInstance) (fields : List JsMap)
    (hi : i < n) (hj : j < n) :
    (createArrayTrace n)[j]? = some (.beginSave j)
    ∧ (createArrayTrace n)[n + i]? = some (.endSave i)
    ∧ j < n + i
    ∧ (createArrayTrace n).countP CreateEvent.isBegin = n
    ∧ (createArrayResults save fields)[idx]? = fields[idx]?.map save := by
  refine ⟨?_, ?_, by omega, ?_, ?_⟩
  · rw [createArrayTrace, List.getElem?_append_left (by simpa using hj)]
    simp [List.getElem?_map, List.getElem?_range, hj]
  · rw [createArrayTrace, List.getElem?_append_right (by simp)]
    simp [List.getElem?_map, List.getElem?_range, hi]
  · have h1 : (CreateEvent.isBegin ∘ CreateEvent.beginSave) = fun _ : Nat => true := rfl
    have h2 : (CreateEvent.isBegin ∘ CreateEvent.endSave) = fun _ : Nat => false := rfl
    simp [createArrayTrace, List.countP_append, List.countP_map, h1, h2]
  · simp [createArrayResults, List.getElem?_map]

/-- Witness for C8 at `n = 2`. -/
theorem create_array_concurrent_inserts_witness :
    (createArrayTrace 2)[1]? = some (.beginSave 1)
    ∧ (createArrayTrace 2)[2 + 0]? = some (.endSave 0) :=
  ⟨(create_array_concurrent_inserts 2 0 1 0 (fun _ => newInstance ⟨0, []⟩ none false false)
      [] (by decide) (by decide)).1,
   (create_array_concurrent_inserts 2 0 1 0 (fun _ => newInstance ⟨0, []⟩ none false false)
      [] (by decide) (by decide)).2.1⟩

/-- Counterexample for C8: inserts are not sequential — already for two
elements, the second save begins before the first completes
(`Q.all(fields.map(...))` starts every save in the same tick). -/
theorem create_array_not_sequential :
    ¬ insertsSequential (createArrayTrace 2) 2 := by
  intro h
  have h0 := h 0 (by norm_num)
  revert h0
  decide

/-! ## C1: the set-map pipeline and the default-value guard -/

/-- The Bool default-value guard, spelled out as a proposition over the
incoming set-map. -/
theorem defaultGuard_iff (p : Property) (isNew : Bool) (s0 : JsMap) :
    defaultGuard p isNew s0 = true ↔
      ((isNew = true ∧ s0.truthyAt p.name = false)
       ∨ (isNew = false ∧ s0.definedAt p.name = true ∧ s0.truthyAt p.name = false)
       ∨ (∃ c, p.opts.defaultChangePropertyName = some c ∧ s0.truthyAt c = true)) := by
  unfold defaultGuard
  cases hc : p.opts.defaultChangePropertyName with
  | none =>
    cases isNew <;> cases htr : s0.truthyAt p.name <;>
      cases hdf : s0.definedAt p.name <;> simp [htr, hdf]
  | some c =>
    cases isNew <;> cases htr : s0.truthyAt p.name <;>
      cases hdf : s0.definedAt p.name <;> cases htc : s0.truthyAt c <;>
      simp [htr, hdf, htc]

/-- A default fill for `p.name` is scheduled exactly when `p` has a default
value and the guard holds on the incoming map. -/
theorem fillDefault_mem_schedule (p : Property) (isNew : Bool) (s0 : JsMap) (v : Val) :
    SetAction.fillDefault p.name v ∈ p.schedule isNew s0 ↔
      (p.opts.defaultValue = some v ∧ defaultGuard p isNew s0 = true) := by
  unfold Property.schedule
  rcases p.opts.transformMethod with _ | f <;>
    rcases p.opts.hashMethod with _ | hashf <;>
    rcases p.opts.defaultValue with _ | v0 <;>
    by_cases hg : defaultGuard p isNew s0 = true <;>
    by_cases ht : s0.truthyAt p.name = true <;>
    simp [hg, ht, eq_comm]

/-- C1 (amended): `_transformSetMap` schedules, for each property in
declaration order, its transform, then its hash-on-set, then its
default-value fill — strictly in that per-property stage order — with every
guard evaluated against the *incoming* set-map, and then runs the scheduled
actions in order.  The default value is scheduled exactly when the property
has one and (the instance is new and the target field is falsy in the
incoming map, OR the instance is not new and the target field is present but
falsy, OR the designated change companion field is truthy in the incoming
map — regardless of whether the target field is set). -/
theorem setMap_pipeline_order_and_default_guard (p : Property)
    (props : List Property) (isNew : Bool) (s0 : JsMap) :
    transformSetMap props isNew s0 = (scheduleAll props isNew s0).foldl runAction s0
    ∧ (p.schedule isNew s0).Pairwise (fun a b => a.stage < b.stage)
    ∧ ((∃ v, SetAction.fillDefault p.name v ∈ p.schedule isNew s0) ↔
        ((∃ v, p.opts.defaultValue = some v)
         ∧ ((isNew = true ∧ s0.truthyAt p.name = false)
            ∨ (isNew = false ∧ s0.definedAt p.name = true ∧ s0.truthyAt p.name = false)
            ∨ (∃ c, p.opts.defaultChangePropertyName = some c ∧ s0.truthyAt c = true)))) := by
  refine ⟨rfl, ?_, ?_⟩
  · unfold Property.schedule
    rcases p.opts.transformMethod with _ | f <;>
      rcases p.opts.hashMethod with _ | hashf <;>
      rcases p.opts.defaultValue with _ | v <;>
      split_ifs <;>
      simp [SetAction.stage]
  · rw [← defaultGuard_iff]
    constructor
    · rintro ⟨v, hv⟩
      rw [fillDefault_mem_schedule] at hv
      exact ⟨⟨v, hv.1⟩, hv.2⟩
    · rintro ⟨⟨v, hv⟩, hg⟩
      exact ⟨v, (fillDefault_mem_schedule p isNew s0 v).mpr ⟨hv, hg⟩⟩

/-- Counterexample for C1: on a create (`isNew = true`), with the target
field `"a"` set to the truthy `"x"` in the incoming set-map but the change
companion `"c"` also set, the pipeline still applies the default and
overwrites `"a"` with `"D"` — the default is not applied "only when the
target field is unset". -/
theorem default_applied_though_target_set :
    (transformSetMap [pDefault] true setMapAC).get "a" = some (.vstr "D")
    ∧ setMapAC.get "a" = some (.vstr "x")
    ∧ (Val.vstr "x").truthy = true :=
  ⟨rfl, rfl, rfl⟩

/-! ## C4: the implicit id property -/

/-- Filtering on one key is unchanged by in-place replacement writes at a
different key. -/
theorem filter_map_replace_ne (d : PropDict) (k key : String)
    (v : List PropSpec) (h : k ≠ key) :
    (d.map (fun kv => if kv.1 = k then (k, v) else kv)).filter
        (fun kv => kv.1 = key) =
      d.filter (fun kv => kv.1 = key) := by
  induction d with
  | nil => rfl
  | cons e rest ih =>
    by_cases he : e.1 = k
    · have h1 : ¬((k, v).1 = key) := by simpa using h
      have h2 : ¬(e.1 = key) := by rw [he]; exact h
      rw [List.map_cons, if_pos he, List.filter_cons, List.filter_cons,
        if_neg (by simpa using h1), if_neg (by simpa using h2)]
      exact ih
    · simp only [List.map_cons, if_neg he, List.filter_cons]
      split <;> rw [ih]

/-- Filtering on one key is unchanged by an upsert of a different key. -/
theorem filter_upsertDict_ne (d : PropDict) (k key : String)
    (v : List PropSpec) (h : k ≠ key) :
    (upsertDict d k v).filter (fun kv => kv.1 = key) =
      d.filter (fun kv => kv.1 = key) := by
  unfold upsertDict
  split
  · exact filter_map_replace_ne d k key v h
  · simp [List.filter_append, h]

/-- One enumeration step never changes the id entries of the accumulator,
provided any `id`-named field it processes has a falsy value. -/
theorem enumStep_filter_id (acc acc2 : PropDict) (k1 : String) (v1 : DefVal)
    (hstep : enumStep acc (k1, v1) = .ok acc2)
    (hnid : k1 = "id" → v1.jsTruthy = false) :
    acc2.filter (fun kv => kv.1 = "id") = acc.filter (fun kv => kv.1 = "id") := by
  unfold enumStep at hstep
  by_cases hproto : (modelPrototypeNames.contains k1) = true
  · simp only [hproto, if_true] at hstep
    cases hstep
    rfl
  · cases v1 with
    | arr specs =>
      cases specs with
      | nil =>
        simp only [hproto, if_false, Bool.false_eq_true] at hstep
        cases hstep
        rfl
      | cons s ss =>
        have hkne : k1 ≠ "id" := by
          intro hk
          have := hnid hk
          simp [DefVal.jsTruthy] at this
        simp only [hproto, if_false, Bool.false_eq_true] at hstep
        split at hstep
        · cases hstep
        · cases hstep
          exact filter_upsertDict_ne acc k1 "id" (s :: ss) hkne
    | func =>
      simp only [hproto, if_false, Bool.false_eq_true] at hstep
      cases hstep
      rfl
    | other t =>
      simp only [hproto, if_false, Bool.false_eq_true] at hstep
      cases hstep
      rfl

/-- The enumeration loop of `getAllProperties` preserves a singleton id
entry in the accumulator provided no truthy `id` field occurs among the
remaining definitions. -/
theorem enum_loop_preserves_id (defs : List (String × DefVal)) (acc r : PropDict)
    (hdefs : ∀ v : DefVal, ("id", v) ∈ defs → v.jsTruthy = false)
    (hacc : acc.filter (fun kv => kv.1 = "id") = [("id", implicitIdSpecs)])
    (hrun : enumLoop acc defs = .ok r) :
    r.filter (fun kv => kv.1 = "id") = [("id", implicitIdSpecs)] := by
  induction defs generalizing acc with
  | nil =>
    cases hrun
    exact hacc
  | cons kv rest ih =>
    obtain ⟨k1, v1⟩ := kv
    unfold enumLoop at hrun
    cases hstep : enumStep acc (k1, v1) with
    | error e =>
      rw [hstep] at hrun
      cases hrun
    | ok acc2 =>
      rw [hstep] at hrun
      have hnid : k1 = "id" → v1.jsTruthy = false := by
        intro hk
        refine hdefs v1 ?_
        rw [← hk]
        exact List.mem_cons_self (k1, v1) rest
      refine ih acc2 (fun v hv => hdefs v (List.mem_cons_of_mem _ hv)) ?_ hrun
      rw [enumStep_filter_id acc acc2 k1 v1 hstep hnid]
      exact hacc

/-- C4 (amended): `getAllProperties()` includes the implicit `id` property
exactly once for every model whose definition does not bind `id` to a truthy
value (in particular whenever it never declares one), and the property
dictionary is created and cached on the first enumeration; but a definition
binding `id` to an empty modifier array suppresses the implicit id while
`_addProperty` then ignores the empty array, leaving no id property at
all. -/
theorem getAllProperties_implicit_id (d : ModelDefn) (r : PropDict)
    (h1 : buildProperties d = .ok r)
    (h2 : ∀ v : DefVal, ("id", v) ∈ d.defs → v.jsTruthy = false) :
    r.filter (fun kv => kv.1 = "id") = [("id", implicitIdSpecs)]
    ∧ r.countP (fun kv => kv.1 = "id") = 1
    ∧ getAllProperties none d = .ok (r, some r)
    ∧ (∀ ps : PropDict, getAllProperties (some ps) d = .ok (ps, some ps)) := by
  have hfilter : r.filter (fun kv => kv.1 = "id") = [("id", implicitIdSpecs)] := by
    unfold buildProperties at h1
    have hfind : (d.defs.find? (fun kv => kv.1 = "id" && kv.2.jsTruthy)) = none := by
      cases hf : d.defs.find? (fun kv => kv.1 = "id" && kv.2.jsTruthy) with
      | none => rfl
      | some kv =>
        have hp := List.find?_some hf
        have hm := List.mem_of_find?_eq_some hf
        simp only [Bool.and_eq_true, decide_eq_true_eq] at hp
        have hm2 : ("id", kv.2) ∈ d.defs := by
          rw [← hp.1]
          exact hm
        have := h2 kv.2 hm2
        rw [this] at hp
        cases hp.2
    rw [hfind] at h1
    simp only [Option.isSome_none, Bool.false_eq_true, if_false] at h1
    exact enum_loop_preserves_id d.defs _ r h2 (by simp [implicitIdSpecs]) h1
  refine ⟨hfilter, ?_, ?_, fun ps => rfl⟩
  · rw [List.countP_eq_length_filter, hfilter]
    rfl
  · unfold getAllProperties
    rw [h1]

/-- Witness for C4 at the concrete definition `defnName` (which never
declares `id`). -/
theorem getAllProperties_implicit_id_witness :
    ([("id", implicitIdSpecs), ("name", [PropSpec.other "String"])].filter
      (fun kv => kv.1 = "id")) = [("id", implicitIdSpecs)] :=
  (getAllProperties_implicit_id defnName
    [("id", implicitIdSpecs), ("name", [PropSpec.other "String"])] rfl
    (by intro v hv; simp [defnName] at hv)).1

/-- Counterexample for C4: the definition `this.id = []` is truthy, so the
implicit id is suppressed, while `_addProperty` ignores the empty modifier
array — the enumerated dictionary of this model has no `id` property at
all. -/
theorem empty_id_declaration_suppresses_id :
    buildProperties defnEmptyId = .ok []
    ∧ getAllProperties none defnEmptyId = .ok ([], some [])
    ∧ ([] : PropDict).find? (fun kv => kv.1 = "id") = none :=
  ⟨rfl, rfl, rfl⟩

/-! ## C6: where-map operator keys and property resolution -/

/-- Lookup on a cons map picks the head's value when keys match, otherwise
looks in the tail. -/
theorem JsMap.get_cons (kv : String × Val) (rest : JsMap) (k : String) :
    JsMap.get (kv :: rest) k = if kv.1 = k then some kv.2 else rest.get k := by
  unfold JsMap.get
  rw [List.find?_cons]
  by_cases h : kv.1 = k
  · simp [h]
  · simp [h]

/-- Reading back a just-written key yields the written value. -/
theorem JsMap.get_set_self (m : JsMap) (k : String) (v : Val) :
    (m.set k v).get k = some v := by
  induction m with
  | nil => simp [JsMap.set, JsMap.get_cons]
  | cons kv rest ih =>
    unfold JsMap.set
    by_cases h : kv.1 = k
    · simp [h, JsMap.get_cons]
    · simp [h, JsMap.get_cons, ih]

/-- Writing one key leaves lookups of another key unchanged. -/
theorem JsMap.get_set_ne (m : JsMap) (k k2 : String) (v : Val) (h : k ≠ k2) :
    (m.set k v).get k2 = m.get k2 := by
  induction m with
  | nil => simp [JsMap.set, JsMap.get_cons, h, JsMap.get]
  | cons kv rest ih =>
    unfold JsMap.set
    by_cases hkv : kv.1 = k
    · rw [if_pos hkv, JsMap.get_cons, JsMap.get_cons, hkv, if_neg h, if_neg h]
    · rw [if_neg hkv, JsMap.get_cons, JsMap.get_cons]
      by_cases h2 : kv.1 = k2
      · rw [if_pos h2, if_pos h2]
      · rw [if_neg h2, if_neg h2, ih]

/-- Any property `getProperty` resolves, on a model and registry without
select methods, has no select method itself. -/
theorem getProperty_select_none (m : Model) (k : String) (p : Property)
    (hsel : ∀ q ∈ m.props, q.opts.selectMethod = none)
    (hreg : ∀ e ∈ m.models, ∀ q ∈ e.2, q.opts.selectMethod = none)
    (hp : m.getProperty k = .ok (some p)) :
    p.opts.selectMethod = none := by
  unfold Model.getProperty at hp
  cases hl : lookupProp m.props k with
  | some q =>
    rw [hl] at hp
    dsimp only at hp
    cases hp
    exact hsel p (List.mem_of_find?_eq_some hl)
  | none =>
    rw [hl] at hp
    dsimp only at hp
    match hsp : splitLimit2 k with
    | [] => rw [hsp] at hp; simp at hp
    | [n1] => rw [hsp] at hp; simp at hp
    | n1 :: n2 :: n3 :: ns => rw [hsp] at hp; simp at hp
    | [n1, n2] =>
      rw [hsp] at hp
      dsimp only at hp
      cases hl1 : lookupProp m.props n1 with
      | none => rw [hl1] at hp; simp at hp
      | some p1 =>
        rw [hl1] at hp
        dsimp only at hp
        cases hb : (if p1.isManyToMany = true then p1.opts.through
                    else p1.opts.associatedModelName).bind
                     (lookupModelProps m.models) with
        | none => rw [hb] at hp; simp at hp
        | some targetProps =>
          rw [hb] at hp
          dsimp only at hp
          have hp2 : lookupProp targetProps n2 = some p := Except.ok.inj hp
          obtain ⟨a, _, hlm⟩ := Option.bind_eq_some.mp hb
          unfold lookupModelProps at hlm
          cases hf : m.models.find? (fun kv => kv.1 = a) with
          | none => rw [hf] at hlm; cases hlm
          | some e =>
            rw [hf] at hlm
            cases hlm
            exact hreg e (List.mem_of_find?_eq_some hf) p
              (List.mem_of_find?_eq_some hp2)

/-- A successful where-entry step for one key never changes the transformed
binding of a different key (given no select methods anywhere, which could
write arbitrary keys). -/
theorem whereEntry_preserves_other_key (m : Model) (acc acc2 : JsMap)
    (kv : String × Val) (k : String)
    (hsel : ∀ q ∈ m.props, q.opts.selectMethod = none)
    (hreg : ∀ e ∈ m.models, ∀ q ∈ e.2, q.opts.selectMethod = none)
    (hne : kv.1 ≠ k)
    (hstep : m.transformWhereEntry acc kv = .ok acc2) :
    acc2.get k = acc.get k := by
  unfold Model.transformWhereEntry at hstep
  by_cases hop : isOperatorKey kv.1 = true
  · rw [if_pos hop] at hstep
    cases hstep
    exact JsMap.get_set_ne acc kv.1 k kv.2 hne
  · rw [if_neg hop] at hstep
    cases hgp : m.getProperty kv.1 with
    | error e => rw [hgp] at hstep; simp at hstep
    | ok po =>
      rw [hgp] at hstep
      cases po with
      | none => simp at hstep
      | some p =>
        have hpsel : p.opts.selectMethod = none :=
          getProperty_select_none m kv.1 p hsel hreg hgp
        dsimp only at hstep
        rw [hpsel] at hstep
        dsimp only at hstep
        cases hhm : p.opts.hashMethod with
        | some hf => rw [hhm] at hstep; simp at hstep
        | none =>
          rw [hhm] at hstep
          dsimp only at hstep
          cases hstep
          exact JsMap.get_set_ne acc kv.1 k kv.2 hne

/-- A successful where loop over entries that never mention a key leaves
that key's transformed binding unchanged. -/
theorem whereLoop_preserves_key (m : Model) (rest : JsMap) (acc out : JsMap)
    (k : String)
    (hsel : ∀ q ∈ m.props, q.opts.selectMethod = none)
    (hreg : ∀ e ∈ m.models, ∀ q ∈ e.2, q.opts.selectMethod = none)
    (hall : ∀ kv ∈ rest, kv.1 ≠ k)
    (hloop : whereLoop m acc rest = .ok out) :
    out.get k = acc.get k := by
  induction rest generalizing acc with
  | nil =>
    cases hloop
    rfl
  | cons kv rest2 ih =>
    unfold whereLoop at hloop
    cases hstep : m.transformWhereEntry acc kv with
    | error e => rw [hstep] at hloop; cases hloop
    | ok acc2 =>
      rw [hstep] at hloop
      rw [ih acc2 (fun kv2 h2 => hall kv2 (List.mem_cons_of_mem kv h2)) hloop]
      exact whereEntry_preserves_other_key m acc acc2 kv k hsel hreg
        (hall kv (List.mem_cons_self kv rest2)) hstep

/-- A successful where loop copies an operator key's binding verbatim into
the transformed map (keys being unique and no select method in sight). -/
theorem whereLoop_operator_key (m : Model) (wm : JsMap) (acc out : JsMap)
    (k : String) (v : Val)
    (hsel : ∀ q ∈ m.props, q.opts.selectMethod = none)
    (hreg : ∀ e ∈ m.models, ∀ q ∈ e.2, q.opts.selectMethod = none)
    (hnodup : (wm.map Prod.fst).Nodup)
    (hk : wm.get k = some v)
    (hop : isOperatorKey k = true)
    (hloop : whereLoop m acc wm = .ok out) :
    out.get k = some v := by
  induction wm generalizing acc with
  | nil => simp [JsMap.get] at hk
  | cons kv rest ih =>
    unfold whereLoop at hloop
    cases hstep : m.transformWhereEntry acc kv with
    | error e => rw [hstep] at hloop; cases hloop
    | ok acc2 =>
      rw [hstep] at hloop
      rw [JsMap.get_cons] at hk
      rw [List.map_cons, List.nodup_cons] at hnodup
      by_cases hkv : kv.1 = k
      · rw [if_pos hkv] at hk
        have hv : kv.2 = v := by injection hk
        have hrest : ∀ kv2 ∈ rest, kv2.1 ≠ k := by
          intro kv2 h2 heq
          refine hnodup.1 ?_
          rw [hkv]
          exact List.mem_map.mpr ⟨kv2, h2, heq⟩
        rw [whereLoop_preserves_key m rest acc2 out k hsel hreg hrest hloop]
        unfold Model.transformWhereEntry at hstep
        rw [if_pos (by rw [hkv]; exact hop)] at hstep
        cases hstep
        rw [hkv, JsMap.get_set_self, hv]
      · rw [if_neg hkv] at hk
        exact ih acc2 hnodup.2 hk hloop

/-- C6 (amended): in `_transformWhereMap`, every key of length greater than
1 beginning with `$` is copied into the transformed map verbatim (same key,
same value — absent select-method expansions, which may rebind arbitrary
keys); a plain non-operator key that does not resolve fails with the
`Cannot find property` error before any datastore call; but a dot-path key
whose *first* segment is not a property of the model fails with a runtime
`TypeError` (`firstProperty.isManyToMany()` on `undefined`), not with the
property-not-found error. -/
theorem whereMap_operator_keys_and_missing_properties :
    (∀ (m : Model) (wm out : JsMap) (k : String) (v : Val),
      (∀ q ∈ m.props, q.opts.selectMethod = none) →
      (∀ e ∈ m.models, ∀ q ∈ e.2, q.opts.selectMethod = none) →
      (wm.map Prod.fst).Nodup →
      wm.get k = some v →
      isOperatorKey k = true →
      m.transformWhereMap wm = .ok out →
      out.get k = some v)
    ∧ (∀ (m : Model) (k : String) (v : Val),
        isOperatorKey k = false →
        splitLimit2 k = [k] →
        lookupProp m.props k = none →
        m.transformWhereMap [(k, v)] = .error (notFoundPropertyError k m.name))
    ∧ (∀ (m : Model) (k n1 n2 : String) (v : Val),
        isOperatorKey k = false →
        lookupProp m.props k = none →
        splitLimit2 k = [n1, n2] →
        lookupProp m.props n1 = none →
        m.transformWhereMap [(k, v)] =
          .error (.typeError "Cannot read property isManyToMany of undefined")) := by
  refine ⟨?_, ?_, ?_⟩
  · intro m wm out k v hsel hreg hnodup hk hop hout
    unfold Model.transformWhereMap at hout
    exact whereLoop_operator_key m wm [] out k v hsel hreg hnodup hk hop hout
  · intro m k v hop hsplit hmiss
    have hgp : m.getProperty k = .ok none := by
      unfold Model.getProperty
      rw [hmiss]
      dsimp only
      rw [hsplit]
    unfold Model.transformWhereMap whereLoop Model.transformWhereEntry
    dsimp only
    rw [if_neg (by simp [hop]), hgp]
  · intro m k n1 n2 v hop hmiss hsplit h1
    have hgp : m.getProperty k =
        .error (.typeError "Cannot read property isManyToMany of undefined") := by
      unfold Model.getProperty
      rw [hmiss]
      dsimp only
      rw [hsplit]
      dsimp only
      rw [h1]
    unfold Model.transformWhereMap whereLoop Model.transformWhereEntry
    dsimp only
    rw [if_neg (by simp [hop]), hgp]

/-- Witness for C6 on the concrete model `mName`: the operator key `$or`
passes through verbatim, and the unresolvable plain key `missing` rejects
with the property-not-found error. -/
theorem whereMap_operator_keys_witness :
    JsMap.get [("$or", Val.vnum 1)] "$or" = some (.vnum 1)
    ∧ mName.transformWhereMap [("missing", .vnum 2)] =
        .error (notFoundPropertyError "missing" mName.name) := by
  constructor
  · exact whereMap_operator_keys_and_missing_properties.1 mName
      [("$or", .vnum 1)] [("$or", .vnum 1)] "$or" (.vnum 1)
      (fun q hq => by rw [List.mem_singleton.mp hq]; rfl)
      (fun e he => absurd he (List.not_mem_nil e))
      (by simp) rfl (by decide) rfl
  · exact whereMap_operator_keys_and_missing_properties.2.1 mName "missing"
      (.vnum 2) (by decide) (by decide) rfl

/-- Counterexample for C6: for the dot-path key `nope.x` whose first segment
is not a property, `_transformWhereMap` crashes with a runtime `TypeError`
(`firstProperty.isManyToMany()` on `undefined`) — not with the
`Cannot find property` error the claim promises. -/
theorem dot_path_missing_first_segment_is_typeError :
    mName.transformWhereMap [("nope.x", .vnum 1)] =
      .error (.typeError "Cannot read property isManyToMany of undefined")
    ∧ JsError.typeError "Cannot read property isManyToMany of undefined" ≠
        notFoundPropertyError "nope.x" mName.name := by
  exact ⟨rfl, by decide⟩

end Fire
